import Mathlib

/-
Shallow embedding of the wled_client repository (files segments.py, effects.py,
server.py) and verification of its specification claims.

Pixel buffers are modelled as lists of colors, one buffer per device; Python
slice reads and slice assignments on those buffers are modelled by `pySlice`
and `pySetSlice` below, with the clipping behaviour of Python slices on
non-negative indices.
-/

namespace WledClient

/-- A 3-component integer color value (`Color = Tuple[int, int, int]` in
segments.py). -/
abbrev Color := Nat × Nat × Nat

/-- The zero color written by deactivation and by the chasing cursor clear. -/
def zeroColor : Color := (0, 0, 0)

/-- Python slice read `xs[a:b]` for non-negative indices: elements at
positions `a, ..., b-1`, clipped to the length of the list. -/
def pySlice (xs : List α) (a b : Nat) : List α :=
  (xs.take b).drop a

/-- Python slice assignment `xs[a:b] = ys` for non-negative indices: the
elements at the (clipped) positions `a, ..., b-1` are replaced by `ys`.
numpy requires `ys` to have exactly the length of the clipped slice; the
callers below always check that, so the definition simply splices. -/
def pySetSlice (xs : List α) (a b : Nat) (ys : List α) : List α :=
  let lo := min a xs.length
  let hi := max lo (min b xs.length)
  xs.take lo ++ ys ++ xs.drop hi

/-- A section of an LED light strip (class `Segment`, segments.py). Only the
fields the pixel and validation logic reads are kept; the `name` config field
feeds error messages only and is omitted. `device_id` indexes into the list of
device buffers. -/
structure Segment where
  device_id : Nat
  pixel_start : Nat
  pixel_end : Nat
deriving DecidableEq, Repr

/-- The per-device pixel buffers (`device_effect.pixels` for each device),
indexed by `Segment.device_id`. -/
abbrev DeviceBuffers := List (List Color)

/-- The pixel buffer of one device. -/
def getBuf (bufs : DeviceBuffers) (d : Nat) : List Color :=
  bufs.getD d []

/-- Replace the pixel buffer of one device. -/
def setBuf (bufs : DeviceBuffers) (d : Nat) (b : List Color) : DeviceBuffers :=
  bufs.set d b

/-- Getter `Segment.pixels` (segments.py lines 49-52):
`self.device_effect.pixels[pixel_start : pixel_end]` - a Python slice, whose
upper bound is exclusive. -/
def Segment.pixels (s : Segment) (bufs : DeviceBuffers) : List Color :=
  pySlice (getBuf bufs s.device_id) s.pixel_start s.pixel_end

/-- Setter `Segment.pixels` (segments.py lines 54-61): length-guard against
the current slice, then `device_pixels[pixel_start:pixel_end] = pixels`. -/
def Segment.set_pixels (s : Segment) (px : List Color) (bufs : DeviceBuffers) :
    Except String DeviceBuffers :=
  if px.length ≠ (s.pixels bufs).length then
    .error "Pixel sequence must be the size of the segment."
  else
    .ok (setBuf bufs s.device_id
      (pySetSlice (getBuf bufs s.device_id) s.pixel_start s.pixel_end px))

/-- A group of visually related LED pixel segments (class `SegmentGroup`,
segments.py); the constructor sorts the segments by `pixel_start`, the pixel
accessors just walk the stored list. -/
structure SegmentGroup where
  segments : List Segment
deriving DecidableEq, Repr

/-- Getter `SegmentGroup.pixels` (segments.py lines 87-89):
`np.concatenate([segment.pixels for segment in self.segments])`. -/
def SegmentGroup.pixels (g : SegmentGroup) (bufs : DeviceBuffers) : List Color :=
  (g.segments.map (fun s => s.pixels bufs)).flatten

/-- The for-loop of the `SegmentGroup.pixels` setter (segments.py lines
96-99).  `next_pixel` is initialised to 0 and, exactly as in the source, never
advanced: every segment receives `pixels[next_pixel : next_pixel +
len(segment.pixels)]`. -/
def writeSegmentsLoop (segs : List Segment) (px : List Color) (next_pixel : Nat)
    (bufs : DeviceBuffers) : Except String DeviceBuffers :=
  match segs with
  | [] => .ok bufs
  | s :: rest => do
    let segment_pixels := pySlice px next_pixel (next_pixel + (s.pixels bufs).length)
    let bufs1 ← s.set_pixels segment_pixels bufs
    writeSegmentsLoop rest px next_pixel bufs1

/-- Setter `SegmentGroup.pixels` (segments.py lines 91-99): length-guard
against the current concatenated pixels, then the per-segment loop. -/
def SegmentGroup.set_pixels (g : SegmentGroup) (px : List Color)
    (bufs : DeviceBuffers) : Except String DeviceBuffers :=
  if px.length ≠ (g.pixels bufs).length then
    .error "Pixel sequence must be the size of the segment group."
  else
    writeSegmentsLoop g.segments px 0 bufs

/-- Function `_segments_overlap` (segments.py lines 190-196): tests whether
segment1's start, or segment1's end, lies inside segment2's inclusive range. -/
def segments_overlap (segment1 segment2 : Segment) : Bool :=
  let start2 := segment2.pixel_start
  let end2 := segment2.pixel_end
  let start_is_in_segment2 :=
    decide (start2 ≤ segment1.pixel_start) && decide (segment1.pixel_start ≤ end2)
  let end_is_in_segment2 :=
    decide (start2 ≤ segment1.pixel_end) && decide (segment1.pixel_end ≤ end2)
  start_is_in_segment2 || end_is_in_segment2

/-- The insertion for-loop of `_map_segment_to_devices` (segments.py lines
183-185).  Python's for-statement walks the live list by index, so an
`insert(i + 1, segment)` performed inside the loop is itself visited on the
next iteration; `fuel` bounds the number of iterations (each iteration grows
the list by at most one and advances the index by one, so `2 * length + 2`
iterations always reach the end of the list whenever the Python loop
terminates). -/
def insertLoop (fuel : Nat) (seg : Segment) (lst : List Segment) (i : Nat) :
    List Segment :=
  match fuel with
  | 0 => lst
  | fuel + 1 =>
    if h : i < lst.length then
      let existing := lst.get ⟨i, h⟩
      let lst1 :=
        if seg.pixel_start > existing.pixel_end then
          lst.insertIdx (i + 1) seg
        else lst
      insertLoop fuel seg lst1 (i + 1)
    else lst

/-- The insertion step of `_map_segment_to_devices` (segments.py lines
183-187): the for-loop above followed by the `else` clause of the
for-statement, which - there being no `break` in the loop - always runs and
appends the segment. -/
def map_segment_insert (seg : Segment) (lst : List Segment) : List Segment :=
  insertLoop (2 * lst.length + 2) seg lst 0 ++ [seg]

/-- Body of `_map_segment_to_devices` for one device's existing segment list
(segments.py lines 166-187): raise if the new segment overlaps any previously
inserted segment (the check runs `_segments_overlap(segment,
existing_segment)` with the new segment first), then insert. -/
def map_segment_to_device (seg : Segment) (lst : List Segment) :
    Except String (List Segment) :=
  if lst.any (fun existing => segments_overlap seg existing) then
    .error "Segment overlaps with an existing segment on the device."
  else
    .ok (map_segment_insert seg lst)

/-- A controllable device (the fields of the ledfx `Device` that segments.py
reads: its identifier and `config['pixel_count']`). -/
structure Device where
  id : Nat
  pixel_count : Nat
deriving DecidableEq, Repr

/-- Class `DeviceAndSegments` (segments.py lines 118-122). -/
structure DeviceAndSegments where
  device : Device
  segments : List Segment
deriving DecidableEq, Repr

/-- One iteration of the gap-scan loop of `_check_unused_pixels`
(segments.py lines 211-215), acting on the state (`last_pixel`, accumulated
`unused_segments`). -/
def unusedStep (st : Int × List (Int × Int)) (segment : Segment) :
    Int × List (Int × Int) :=
  let last_pixel := st.1
  let unused := st.2
  let unused1 :=
    if (segment.pixel_start : Int) - last_pixel > 1 then
      unused ++ [(last_pixel + 1, (segment.pixel_start : Int) - 1)]
    else unused
  ((segment.pixel_end : Int), unused1)

/-- The per-device gap scan of `_check_unused_pixels` (segments.py lines
209-218): a fold of `unusedStep` starting from `last_pixel = -1`, then a
final range up to `pixel_count - 1` when the last segment ends before it. -/
def check_device_unused (segments : List Segment) (pixel_count : Nat) :
    List (Int × Int) :=
  let scanned := segments.foldl unusedStep ((-1 : Int), [])
  let last_pixel := scanned.1
  let unused := scanned.2
  if last_pixel < (pixel_count : Int) - 1 then
    unused ++ [(last_pixel + 1, (pixel_count : Int) - 1)]
  else unused

/-- Function `_check_unused_pixels` (segments.py lines 199-223): devices with
no segments are skipped by the `continue`; for the rest the gap scan runs and
a warning entry (device id, unused ranges) is emitted when the scan found
anything. -/
def check_unused_pixels (device_map : List DeviceAndSegments) :
    List (Nat × List (Int × Int)) :=
  device_map.foldr
    (fun das acc =>
      if das.segments.length = 0 then acc
      else
        let unused := check_device_unused das.segments das.device.pixel_count
        if unused.length > 0 then (das.device.id, unused) :: acc else acc)
    []

/-- The gaps of a device's segment list as the specification describes them: a
range before the first segment when its `pixel_start` exceeds 0, a range
between consecutive segments when the next `pixel_start` exceeds the previous
`pixel_end` by more than 1, and a range after the last segment when its
`pixel_end` is below the device's last valid pixel index.  Written from the
claim's words, to be compared with `check_device_unused`. -/
def claimBetweenGaps : List Segment → List (Int × Int)
  | s1 :: s2 :: rest =>
    (if (s2.pixel_start : Int) > (s1.pixel_end : Int) + 1 then
      [((s1.pixel_end : Int) + 1, (s2.pixel_start : Int) - 1)]
    else []) ++ claimBetweenGaps (s2 :: rest)
  | _ => []

/-- The last element of a nonempty segment list (helper for `claimGaps`). -/
def lastSegment (s0 : Segment) : List Segment → Segment
  | [] => s0
  | s1 :: rest => lastSegment s1 rest

/-- Specification-side description of the unused ranges of one device (see
`claimBetweenGaps`). -/
def claimGaps (segments : List Segment) (pixel_count : Nat) : List (Int × Int) :=
  match segments with
  | [] => []
  | s0 :: rest =>
    (if 0 < s0.pixel_start then [(0, (s0.pixel_start : Int) - 1)] else []) ++
    claimBetweenGaps (s0 :: rest) ++
    (let sl := lastSegment s0 rest
     if (sl.pixel_end : Int) < (pixel_count : Int) - 1 then
       [((sl.pixel_end : Int) + 1, (pixel_count : Int) - 1)]
     else [])

/-- numpy broadcast fill `pixels[i : i + size] = color` (effects.py line 52):
every position of the clipped slice becomes `color`. -/
def fillSlice (px : List Color) (i size : Nat) (c : Color) : List Color :=
  px.take i ++ List.replicate (min (i + size) px.length - min i px.length) c ++
    px.drop (i + size)

/-- The while-loop of `SolidColorLightShow.activate` (effects.py lines 49-54):
while `i < len(pixels)`, fill `pixels[i : i + size_of_color]` with
`colors[color_block % len(colors)]`, advance `color_block` by one and `i` by
`size_of_color + space_between`.  `fuel` bounds the iterations;
`pixels.length` iterations suffice whenever `size_of_color + space_between ≥
1` (each iteration advances `i` by at least one). -/
def solidLoop (fuel : Nat) (colors : List Color) (size_of_color space_between : Nat)
    (i color_block : Nat) (pixels : List Color) : List Color :=
  match fuel with
  | 0 => pixels
  | fuel + 1 =>
    if i < pixels.length then
      solidLoop fuel colors size_of_color space_between
        (i + size_of_color + space_between) (color_block + 1)
        (fillSlice pixels i size_of_color
          (colors.getD (color_block % colors.length) zeroColor))
    else pixels

/-- The pixel sequence `SolidColorLightShow.activate` computes for one segment
group (effects.py lines 47-54), starting from the group's current pixels. -/
def solidColorPattern (pixels : List Color) (colors : List Color)
    (size_of_color space_between : Nat) : List Color :=
  solidLoop pixels.length colors size_of_color space_between 0 0 pixels

/-- `SolidColorLightShow.activate` (effects.py lines 45-55): for each segment
group, read its pixels, run the block walk, and write the result back through
the group's pixel setter. -/
def solid_color_activate (groups : List SegmentGroup) (colors : List Color)
    (size_of_color space_between : Nat) (bufs : DeviceBuffers) :
    Except String DeviceBuffers :=
  match groups with
  | [] => .ok bufs
  | g :: rest => do
    let pixels := g.pixels bufs
    let bufs1 ← g.set_pixels (solidColorPattern pixels colors size_of_color space_between) bufs
    solid_color_activate rest colors size_of_color space_between bufs1

/-- `LightShow.deactivate` (effects.py lines 20-24): for each segment group,
read its pixels, blank them all to the zero color (`pixels[:] = (0, 0, 0)`),
and write the blank sequence back through the group's pixel setter. -/
def deactivate_loop (groups : List SegmentGroup) (bufs : DeviceBuffers) :
    Except String DeviceBuffers :=
  match groups with
  | [] => .ok bufs
  | g :: rest => do
    let pixels := g.pixels bufs
    let pixels := pixels.map (fun _ => zeroColor)
    let bufs1 ← g.set_pixels pixels bufs
    deactivate_loop rest bufs1

/-- `TemporalLightShow.deactivate` (effects.py lines 113-119): clear the
thread-active flag, join the background thread, then run the base
`LightShow.deactivate` blanking.  In this sequential model the join is the
point after which no further effect-loop write occurs, so deactivation is the
flag clear followed by the blanking. -/
def temporal_deactivate (_thread_active : Bool) (groups : List SegmentGroup)
    (bufs : DeviceBuffers) : Except String (Bool × DeviceBuffers) := do
  let bufs1 ← deactivate_loop groups bufs
  .ok (false, bufs1)

/-- One segment group's step of `LedChasing.effect_loop` (effects.py lines
130-140).  After clearing the cursor pixel and advancing the cursor, the
inner loop executes `pixels[pixel_indicies] = self._colors[i]`: the index
expression is the generator object `pixel_indicies` itself, not the loop
variable `pixel_index`, and numpy rejects a generator as an index, so the
first inner iteration raises (after evaluating its right-hand side
`self._colors[0]`, which itself raises when the color list is empty).  When
the group is empty, the earlier statement `pixels[self._pixel] = (0, 0, 0)`
already raises an out-of-bounds error.  Every path therefore raises; the
intermediate pixel mutations are discarded by the exception. -/
def led_chasing_group_step (colors : List Color) (pixel : Nat)
    (g : SegmentGroup) (bufs : DeviceBuffers) :
    Except String (Nat × DeviceBuffers) :=
  let pixels := g.pixels bufs
  if pixel < pixels.length then
    if colors.length = 0 then
      .error "IndexError: tuple index out of range"
    else
      .error "IndexError: only integers, slices, ellipsis, numpy.newaxis and integer or boolean arrays are valid indices"
  else
    .error "IndexError: index is out of bounds"

/-- Equality of `Except` values is decidable componentwise (used to evaluate
the embedded fallible operations on concrete inputs). -/
instance {ε α : Type} [DecidableEq ε] [DecidableEq α] : DecidableEq (Except ε α) := fun a b =>
  match a, b with
  | .ok x, .ok y =>
    if h : x = y then .isTrue (by rw [h]) else .isFalse (by intro hc; cases hc; exact h rfl)
  | .error x, .error y =>
    if h : x = y then .isTrue (by rw [h]) else .isFalse (by intro hc; cases hc; exact h rfl)
  | .ok _, .error _ => .isFalse (by intro hc; cases hc)
  | .error _, .ok _ => .isFalse (by intro hc; cases hc)

/-- Worker for `pySplit`: walk the character list, cutting a token whenever
the (non-empty) separator is a prefix of the remainder; `fuel` bounds the
steps, and one more than the length of the list always suffices since every
step consumes at least one character or ends the walk. -/
def splitAux (sep : List Char) (fuel : Nat) (cs acc : List Char) : List (List Char) :=
  match fuel with
  | 0 => [acc.reverse]
  | fuel + 1 =>
    if sep.isPrefixOf cs ∧ sep ≠ [] then
      acc.reverse :: splitAux sep fuel (cs.drop sep.length) []
    else
      match cs with
      | [] => [acc.reverse]
      | c :: rest => splitAux sep fuel rest (c :: acc)

/-- Python `s.split(sep)` for a non-empty separator: the maximal split of `s`
at the non-overlapping occurrences of `sep`, scanned left to right
(`color_pattern.split('_AND_')` in server.py line 102). -/
def pySplit (s sep : String) : List String :=
  (splitAux sep.toList (s.toList.length + 1) s.toList []).map (fun l => String.mk l)

/-- Modelled from the spec: the color table `colors.COLOR_MAP` lives in
colors.py, which is not among the sources; the spec describes it as a fixed
mapping from canonical color names to Color values that includes the entries
the server references (at least `WARM_WHITE`, `RED`, `GREEN`, `BLUE`). -/
def COLOR_MAP : List (String × Color) :=
  [("WARM_WHITE", (255, 244, 229)),
   ("RED", (255, 0, 0)),
   ("GREEN", (0, 255, 0)),
   ("BLUE", (0, 0, 255)),
   ("ORANGE", (255, 165, 0)),
   ("YELLOW", (255, 255, 0)),
   ("PURPLE", (128, 0, 128))]

/-- Lookup of one color name in the color table. -/
def lookupColor (name : String) : Option Color :=
  COLOR_MAP.lookup name

/-- The state of the current light show that the color handler touches: its
color list and whether it is active. -/
structure ShowState where
  colors : List Color
  active : Bool
deriving DecidableEq, Repr

/-- The mutable current-show slot (`self._ledfx.show`), empty when no show has
been selected. -/
structure LedFxState where
  current_show : Option ShowState
deriving DecidableEq, Repr

/-- A show's `deactivate()` as the color handler observes it: production
stops. -/
def showDeactivate (s : ShowState) : ShowState :=
  { s with active := false }

/-- A show's `activate()` as the color handler observes it: production
starts. -/
def showActivate (s : ShowState) : ShowState :=
  { s with active := true }

/-- A show's `colors` setter. -/
def showSetColors (s : ShowState) (cs : List Color) : ShowState :=
  { s with colors := cs }

/-- `_EFFECT_MAP['DEFAULT']` (server.py lines 12-13): a solid-color show built
with the fixed color list `(COLOR_MAP['WARM_WHITE'],)` - the handler's
resolved colors are not passed through - and not yet activated. -/
def defaultShow (_effect_colors : List Color) : ShowState :=
  { colors := [(COLOR_MAP.lookup "WARM_WHITE").getD zeroColor], active := false }

/-- The first token of the split action string that does not resolve in the
color table - the token at which the validation for-loop of
`LightColorAction.__call__` returns (server.py lines 104-107). -/
def firstInvalidColor (color_patterns : List String) : Option String :=
  color_patterns.find? (fun p => (lookupColor p).isNone)

/-- `LightColorAction.__call__` (server.py lines 101-119): split the action on
`_AND_`; return a 400 response naming the first unresolvable token, leaving
the state untouched; otherwise resolve every token, build the DEFAULT show
first when no show is active, then deactivate, set the resolved colors, and
activate.  The result is the pair (status code, response body) and the new
state. -/
def light_color_action (color_pattern : String) (st : LedFxState) :
    (Nat × String) × LedFxState :=
  let color_patterns := pySplit color_pattern "_AND_"
  match firstInvalidColor color_patterns with
  | some bad => ((400, "invalid color " ++ bad), st)
  | none =>
    let selected_colors := color_patterns.filterMap lookupColor
    let show0 :=
      match st.current_show with
      | none => defaultShow selected_colors
      | some s => s
    ((200, ""),
      { current_show := some (showActivate (showSetColors (showDeactivate show0) selected_colors)) })

/-- The `last_pixel` value the gap-scan fold carries after a segment list,
starting from `last`. -/
def finalLast (last : Int) : List Segment → Int
  | [] => last
  | s :: rest => finalLast (s.pixel_end : Int) rest

/-- The unused ranges the gap-scan fold appends when run over a segment list
starting from `last_pixel = last` (analysis helper for `check_device_unused`). -/
def contribGaps (last : Int) : List Segment → List (Int × Int)
  | [] => []
  | s :: rest =>
    (if (s.pixel_start : Int) - last > 1 then
      [(last + 1, (s.pixel_start : Int) - 1)]
    else []) ++ contribGaps (s.pixel_end : Int) rest

/-- Every pixel of the list is the zero color. -/
def AllZero (l : List Color) : Prop :=
  ∀ c ∈ l, c = zeroColor

/-- One or more buffer writes that only ever wrote the zero color: buffer
lengths are preserved and every position either kept its old value or became
zero. -/
def ZeroStep (bufs bufs' : DeviceBuffers) : Prop :=
  (∀ d : Nat, (getBuf bufs' d).length = (getBuf bufs d).length) ∧
  (∀ (d p : Nat) (c : Color), (getBuf bufs' d)[p]? = some c →
    (getBuf bufs d)[p]? = some c ∨ c = zeroColor)

/-- Length of a Python slice read. -/
lemma pySlice_length (xs : List α) (a b : Nat) :
    (pySlice xs a b).length =
      max (min a xs.length) (min b xs.length) - min a xs.length := by
  simp only [pySlice, List.length_drop, List.length_take]
  omega

/-- Positional description of a Python slice read. -/
lemma pySlice_getElem? (xs : List α) (a b k : Nat) :
    (pySlice xs a b)[k]? = if a + k < b then xs[a + k]? else none := by
  simp [pySlice, List.getElem?_drop, List.getElem?_take]

/-- Members of a slice are members of the list. -/
lemma mem_of_mem_pySlice {xs : List α} {a b : Nat} {c : α}
    (h : c ∈ pySlice xs a b) : c ∈ xs :=
  List.mem_of_mem_take (List.mem_of_mem_drop h)

/-- A splice whose replacement has exactly the slice's length preserves the
list's length. -/
lemma pySetSlice_length (xs ys : List α) (a b : Nat)
    (h : ys.length = (pySlice xs a b).length) :
    (pySetSlice xs a b ys).length = xs.length := by
  rw [pySlice_length] at h
  simp only [pySetSlice, List.length_append, List.length_take, List.length_drop]
  omega

/-- Positional description of a splice whose replacement has exactly the
slice's length: positions below the slice and at or above its end keep their
values, positions inside come from the replacement. -/
lemma pySetSlice_getElem? (xs ys : List α) (a b p : Nat)
    (h : ys.length = (pySlice xs a b).length) :
    (pySetSlice xs a b ys)[p]? =
      if p < min a xs.length then xs[p]?
      else if p < min a xs.length + ys.length then ys[p - min a xs.length]?
      else xs[p]? := by
  rw [pySlice_length] at h
  simp only [pySetSlice, List.getElem?_append, List.length_append, List.length_take]
  rcases Nat.lt_or_ge p (min a xs.length) with hp | hp
  · rw [if_pos (by omega), if_pos (by omega), List.getElem?_take, if_pos (by omega),
      if_pos hp]
  · rcases Nat.lt_or_ge p (min a xs.length + ys.length) with hp2 | hp2
    · rw [if_pos (by omega), if_neg (by omega), if_neg (by omega), if_pos hp2]
      congr 1
      omega
    · rw [if_neg (by omega), if_neg (by omega), if_neg (by omega),
        List.getElem?_drop]
      rcases Nat.lt_or_ge p xs.length with hpx | hpx
      · congr 1
        omega
      · rw [List.getElem?_eq_none (by omega), List.getElem?_eq_none (by omega)]

/-- Reading a device buffer after replacing one device's buffer. -/
lemma getBuf_setBuf (bufs : DeviceBuffers) (d d' : Nat) (b : List Color) :
    getBuf (setBuf bufs d b) d' =
      if d' = d ∧ d < bufs.length then b else getBuf bufs d' := by
  have hgd : ∀ (l : DeviceBuffers) (i : Nat), getBuf l i = (l[i]?).getD [] := by
    intro l i
    simp [getBuf, List.getD]
  rw [hgd, hgd, setBuf, List.getElem?_set]
  rcases Decidable.em (d = d') with rfl | hne
  · rcases Nat.lt_or_ge d bufs.length with hlt | hge
    · rw [if_pos rfl, if_pos hlt, if_pos ⟨rfl, hlt⟩]
      rfl
    · rw [if_pos rfl, if_neg (Nat.not_lt.mpr hge),
        if_neg (fun h => absurd h.2 (Nat.not_lt.mpr hge)),
        List.getElem?_eq_none hge]
  · rw [if_neg hne, if_neg (fun h => hne h.1.symm)]

/-- A segment's pixel-slice length depends only on the lengths of the device
buffers. -/
lemma pixels_length_congr (s : Segment) {b1 b2 : DeviceBuffers}
    (h : ∀ d : Nat, (getBuf b2 d).length = (getBuf b1 d).length) :
    (s.pixels b2).length = (s.pixels b1).length := by
  simp only [Segment.pixels, pySlice_length, h]

/-- Inversion of a successful segment-pixel write. -/
lemma set_pixels_ok_iff {s : Segment} {px : List Color}
    {bufs bufs' : DeviceBuffers} :
    s.set_pixels px bufs = .ok bufs' ↔
      px.length = (s.pixels bufs).length ∧
      bufs' = setBuf bufs s.device_id
        (pySetSlice (getBuf bufs s.device_id) s.pixel_start s.pixel_end px) := by
  constructor
  · intro hok
    by_cases hl : px.length = (s.pixels bufs).length
    · refine ⟨hl, ?_⟩
      rw [Segment.set_pixels, if_neg (by omega)] at hok
      exact (Except.ok.injEq _ _).mp hok |>.symm
    · rw [Segment.set_pixels, if_pos (by omega)] at hok
      cases hok
  · rintro ⟨hl, rfl⟩
    rw [Segment.set_pixels, if_neg (by omega)]

/-- A successful segment write preserves the length of every device buffer. -/
lemma set_pixels_length {s : Segment} {px : List Color}
    {bufs bufs' : DeviceBuffers} (hok : s.set_pixels px bufs = .ok bufs') :
    ∀ d : Nat, (getBuf bufs' d).length = (getBuf bufs d).length := by
  obtain ⟨hl, rfl⟩ := set_pixels_ok_iff.mp hok
  intro d
  rw [getBuf_setBuf]
  split_ifs with hd
  · rcases hd with ⟨rfl, _⟩
    exact pySetSlice_length _ _ _ _ hl
  · rfl

/-- The pixels a successful segment write leaves in the segment's own slice
are exactly the written sequence. -/
lemma pixels_after_set {s : Segment} {px : List Color}
    {bufs bufs' : DeviceBuffers} (hok : s.set_pixels px bufs = .ok bufs') :
    s.pixels bufs' = px := by
  obtain ⟨hl, rfl⟩ := set_pixels_ok_iff.mp hok
  rw [Segment.pixels] at hl ⊢
  rw [getBuf_setBuf]
  split_ifs with hd
  · apply List.ext_getElem?
    intro k
    have hlen := pySetSlice_length (getBuf bufs s.device_id) px
      s.pixel_start s.pixel_end hl
    rw [pySlice_getElem?]
    rw [pySlice_length] at hl
    split_ifs with hk
    · rw [pySetSlice_getElem? _ _ _ _ _ (by rw [pySlice_length]; omega)]
      rcases Nat.lt_or_ge k px.length with hkp | hkp
      · rw [if_neg (by omega), if_pos (by omega)]
        congr 1
        omega
      · rw [if_neg (by omega), if_neg (by omega),
          List.getElem?_eq_none (by omega), List.getElem?_eq_none (by omega)]
    · rw [List.getElem?_eq_none (by omega)]
  · have hempty : (getBuf bufs s.device_id).length = 0 := by
      simp only [getBuf] at *
      rcases Nat.lt_or_ge s.device_id bufs.length with hlt | hge
      · exact absurd hlt (by simpa using hd)
      · simp [List.getD, List.getElem?_eq_none hge]
    rw [pySlice_length] at hl
    have : px.length = 0 := by omega
    rw [List.length_eq_zero] at this
    subst this
    apply List.eq_nil_of_length_eq_zero
    rw [pySlice_length]
    omega

/-- `ZeroStep` is reflexive. -/
lemma zeroStep_refl (bufs : DeviceBuffers) : ZeroStep bufs bufs :=
  ⟨fun _ => rfl, fun _ _ _ h => .inl h⟩

/-- `ZeroStep` is transitive. -/
lemma zeroStep_trans {b1 b2 b3 : DeviceBuffers} (h12 : ZeroStep b1 b2)
    (h23 : ZeroStep b2 b3) : ZeroStep b1 b3 := by
  refine ⟨fun d => (h23.1 d).trans (h12.1 d), fun d p c h3 => ?_⟩
  rcases h23.2 d p c h3 with h2 | hz
  · exact h12.2 d p c h2
  · exact .inr hz

/-- A successful segment write of an all-zero sequence is a `ZeroStep`. -/
lemma set_pixels_zeroStep {s : Segment} {px : List Color}
    {bufs bufs' : DeviceBuffers} (hok : s.set_pixels px bufs = .ok bufs')
    (hz : ∀ c ∈ px, c = zeroColor) : ZeroStep bufs bufs' := by
  refine ⟨set_pixels_length hok, ?_⟩
  obtain ⟨hl, rfl⟩ := set_pixels_ok_iff.mp hok
  intro d p c hp
  rw [getBuf_setBuf] at hp
  split_ifs at hp with hd
  · rcases hd with ⟨rfl, _⟩
    rw [Segment.pixels] at hl
    rw [pySetSlice_getElem? _ _ _ _ _ hl] at hp
    split_ifs at hp with h1 h2
    · exact .inl hp
    · exact .inr (hz c (List.mem_iff_getElem?.mpr ⟨_, hp⟩))
    · exact .inl hp
  · exact .inl hp

/-- Reading a segment across a `ZeroStep` only turns pixels into zeros. -/
lemma allZero_pixels_of_zeroStep {s : Segment} {b b' : DeviceBuffers}
    (hz : ZeroStep b b') (h : AllZero (s.pixels b)) : AllZero (s.pixels b') := by
  intro c hc
  obtain ⟨k, hk⟩ := List.mem_iff_getElem?.mp hc
  rw [Segment.pixels, pySlice_getElem?] at hk
  split_ifs at hk with hik
  · rcases hz.2 _ _ _ hk with hold | hzero
    · refine h c (List.mem_iff_getElem?.mpr ⟨k, ?_⟩)
      rw [Segment.pixels, pySlice_getElem?, if_pos hik]
      exact hold
    · exact hzero

/-- The group's flattened pixel length is the sum of its segments' pixel
lengths. -/
lemma group_pixels_length (g : SegmentGroup) (bufs : DeviceBuffers) :
    (g.pixels bufs).length =
      (g.segments.map (fun s => (s.pixels bufs).length)).sum := by
  simp only [SegmentGroup.pixels, List.length_flatten, List.map_map]
  rfl

/-- A group reads as all-zero exactly when each of its segments does. -/
lemma allZero_group_iff (g : SegmentGroup) (bufs : DeviceBuffers) :
    AllZero (g.pixels bufs) ↔ ∀ s ∈ g.segments, AllZero (s.pixels bufs) := by
  constructor
  · intro h s hs c hc
    exact h c (by
      simp only [SegmentGroup.pixels, List.mem_flatten]
      exact ⟨s.pixels bufs, List.mem_map.mpr ⟨s, hs, rfl⟩, hc⟩)
  · intro h c hc
    simp only [SegmentGroup.pixels, List.mem_flatten] at hc
    obtain ⟨l, hl, hcl⟩ := hc
    obtain ⟨s, hs, rfl⟩ := List.mem_map.mp hl
    exact h s hs c hcl

/-- An all-zero reading group stays all-zero across a `ZeroStep`. -/
lemma allZero_group_of_zeroStep {g : SegmentGroup} {b b' : DeviceBuffers}
    (hz : ZeroStep b b') (h : AllZero (g.pixels b)) : AllZero (g.pixels b') := by
  rw [allZero_group_iff] at h ⊢
  exact fun s hs => allZero_pixels_of_zeroStep hz (h s hs)

/-- Running the group-write loop with an all-zero sequence long enough for
every segment always succeeds, only writes zeros, and leaves every segment of
the list reading all-zero. -/
lemma writeSegmentsLoop_zero (px : List Color) (hzp : ∀ c ∈ px, c = zeroColor) :
    ∀ (segs : List Segment) (bufs : DeviceBuffers),
      (∀ s ∈ segs, ((s : Segment).pixels bufs).length ≤ px.length) →
      ∃ bufs', writeSegmentsLoop segs px 0 bufs = .ok bufs' ∧
        ZeroStep bufs bufs' ∧ ∀ s ∈ segs, AllZero (s.pixels bufs')
  | [], bufs, _ => ⟨bufs, rfl, zeroStep_refl bufs, by simp⟩
  | s :: rest, bufs, hle => by
    have hchunklen :
        (pySlice px 0 (0 + (s.pixels bufs).length)).length =
          (s.pixels bufs).length := by
      rw [pySlice_length]
      have := hle s (by simp)
      omega
    have hok : s.set_pixels (pySlice px 0 (0 + (s.pixels bufs).length)) bufs =
        .ok (setBuf bufs s.device_id
          (pySetSlice (getBuf bufs s.device_id) s.pixel_start s.pixel_end
            (pySlice px 0 (0 + (s.pixels bufs).length)))) :=
      set_pixels_ok_iff.mpr ⟨hchunklen, rfl⟩
    set bufs1 := setBuf bufs s.device_id
      (pySetSlice (getBuf bufs s.device_id) s.pixel_start s.pixel_end
        (pySlice px 0 (0 + (s.pixels bufs).length))) with hbufs1
    have hchunkz : ∀ c ∈ pySlice px 0 (0 + (s.pixels bufs).length),
        c = zeroColor := fun c hc => hzp c (mem_of_mem_pySlice hc)
    have hz1 : ZeroStep bufs bufs1 := set_pixels_zeroStep hok hchunkz
    have hs1 : AllZero (s.pixels bufs1) := by
      rw [pixels_after_set hok]
      exact hchunkz
    have hrest : ∀ t ∈ rest, ((t : Segment).pixels bufs1).length ≤ px.length := by
      intro t ht
      rw [pixels_length_congr t hz1.1]
      exact hle t (by simp [ht])
    obtain ⟨bufs2, hloop, hz2, hallz⟩ := writeSegmentsLoop_zero px hzp rest bufs1 hrest
    refine ⟨bufs2, ?_, zeroStep_trans hz1 hz2, ?_⟩
    · rw [writeSegmentsLoop, hok]
      simpa using hloop
    · intro t ht
      rcases List.mem_cons.mp ht with rfl | htr
      · exact allZero_pixels_of_zeroStep hz2 hs1
      · exact hallz t htr

/-- `LightShow.deactivate` always succeeds, only writes zeros, and leaves
every group of the list reading all-zero. -/
lemma deactivate_loop_zero :
    ∀ (groups : List SegmentGroup) (bufs : DeviceBuffers),
      ∃ bufs', deactivate_loop groups bufs = .ok bufs' ∧
        ZeroStep bufs bufs' ∧ ∀ g ∈ groups, AllZero (g.pixels bufs')
  | [], bufs => ⟨bufs, rfl, zeroStep_refl bufs, by simp⟩
  | g :: rest, bufs => by
    set px := (g.pixels bufs).map (fun _ => zeroColor) with hpx
    have hzp : ∀ c ∈ px, c = zeroColor := by
      intro c hc
      obtain ⟨_, _, rfl⟩ := List.mem_map.mp hc
      rfl
    have hpl : px.length = (g.pixels bufs).length := List.length_map _ _
    have hseg : ∀ s ∈ g.segments, ((s : Segment).pixels bufs).length ≤ px.length := by
      intro s hs
      rw [hpl, group_pixels_length]
      exact List.single_le_sum (fun _ _ => Nat.zero_le _) _
        (List.mem_map.mpr ⟨s, hs, rfl⟩)
    obtain ⟨bufs1, hloop, hz1, hallz⟩ := writeSegmentsLoop_zero px hzp g.segments bufs hseg
    have hgset : g.set_pixels px bufs = .ok bufs1 := by
      rw [SegmentGroup.set_pixels, if_neg (by omega)]
      exact hloop
    obtain ⟨bufs2, hrest, hz2, hgroups⟩ := deactivate_loop_zero rest bufs1
    refine ⟨bufs2, ?_, zeroStep_trans hz1 hz2, ?_⟩
    · rw [deactivate_loop, hgset]
      simpa using hrest
    · intro g2 hg2
      rcases List.mem_cons.mp hg2 with rfl | hgr
      · refine allZero_group_of_zeroStep hz2 ?_
        rw [allZero_group_iff]
        exact hallz
      · exact hgroups g2 hgr

/-- The broadcast fill preserves the pixel count. -/
lemma fillSlice_length (px : List Color) (i size : Nat) (c : Color) :
    (fillSlice px i size c).length = px.length := by
  simp only [fillSlice, List.length_append, List.length_take,
    List.length_replicate, List.length_drop]
  omega

/-- Positional description of the broadcast fill: positions `i ≤ j < i + size`
inside the list become `c`, all others keep their value. -/
lemma fillSlice_getElem? (px : List Color) (i size : Nat) (c : Color) (j : Nat) :
    (fillSlice px i size c)[j]? =
      if i ≤ j ∧ j < i + size ∧ j < px.length then some c else px[j]? := by
  simp only [fillSlice, List.getElem?_append, List.length_append,
    List.length_take, List.length_replicate]
  rcases Nat.lt_or_ge j (min i px.length) with hj | hj
  · rw [if_pos (by omega), if_pos (by omega), List.getElem?_take,
      if_pos (by omega), if_neg (by omega)]
  · rcases Nat.lt_or_ge j (min i px.length +
      (min (i + size) px.length - min i px.length)) with hj2 | hj2
    · rw [if_pos (by omega), if_neg (by omega), List.getElem?_replicate,
        if_pos (by omega), if_pos (by constructor <;> omega)]
    · rw [if_neg (by omega), if_neg (by omega), List.getElem?_drop]
      rcases Nat.lt_or_ge j px.length with hjx | hjx
      · congr 1
        omega
      · rw [List.getElem?_eq_none (by omega), List.getElem?_eq_none (by omega)]

/-- The block-walk loop preserves the pixel count. -/
lemma solidLoop_length (colors : List Color) (size space : Nat) :
    ∀ (fuel i cb : Nat) (px : List Color),
      (solidLoop fuel colors size space i cb px).length = px.length
  | 0, _, _, _ => rfl
  | fuel + 1, i, cb, px => by
    rw [solidLoop]
    split_ifs with hi
    · rw [solidLoop_length colors size space fuel _ _ _, fillSlice_length]
    · rfl

/-- The block-walk loop never touches positions below its index. -/
lemma solidLoop_getElem?_lt (colors : List Color) (size space : Nat) :
    ∀ (fuel i cb : Nat) (px : List Color) (j : Nat), j < i →
      (solidLoop fuel colors size space i cb px)[j]? = px[j]?
  | 0, _, _, _, _, _ => rfl
  | fuel + 1, i, cb, px, j, hj => by
    rw [solidLoop]
    split_ifs with hi
    · rw [solidLoop_getElem?_lt colors size space fuel _ _ _ j (by omega),
        fillSlice_getElem?, if_neg (by omega)]
    · rfl

/-- Positional description of the block-walk loop from index `i` and block
counter `cb`, given enough fuel: relative position `j - i` determines whether
the pixel is colored (by the block it falls in) or untouched. -/
lemma solidLoop_spec (colors : List Color) (size space : Nat)
    (hsp : 1 ≤ size + space) :
    ∀ (fuel i cb : Nat) (px : List Color) (j : Nat),
      px.length ≤ i + fuel * (size + space) → i ≤ j → j < px.length →
      (solidLoop fuel colors size space i cb px)[j]? =
        if (j - i) % (size + space) < size then
          some (colors.getD ((cb + (j - i) / (size + space)) % colors.length)
            zeroColor)
        else px[j]?
  | 0, i, cb, px, j, hfuel, hij, hjl => by omega
  | fuel + 1, i, cb, px, j, hfuel, hij, hjl => by
    rw [solidLoop, if_pos (by omega)]
    rcases Nat.lt_or_ge j (i + size + space) with hj | hj
    · rw [solidLoop_getElem?_lt colors size space fuel _ _ _ j (by omega),
        fillSlice_getElem?]
      rcases Nat.lt_or_ge j (i + size) with hjs | hjs
      · rw [if_pos ⟨hij, hjs, hjl⟩,
          if_pos (show (j - i) % (size + space) < size by
            rw [Nat.mod_eq_of_lt (by omega)]
            omega),
          Nat.div_eq_of_lt (show j - i < size + space by omega), Nat.add_zero]
      · rw [if_neg (by omega), if_neg (by
          rw [Nat.mod_eq_of_lt (by omega)]
          omega)]
    · have hlen1 : (fillSlice px i size
          (colors.getD (cb % colors.length) zeroColor)).length = px.length :=
        fillSlice_length px i size _
      rw [solidLoop_spec colors size space hsp fuel (i + size + space) (cb + 1)
        _ j (by
          rw [hlen1]
          have hexp : (fuel + 1) * (size + space) =
              fuel * (size + space) + (size + space) := by ring
          omega)
        (by omega) (by omega)]
      have hsub : j - i = (j - (i + size + space)) + (size + space) := by omega
      have hmod : (j - (i + size + space)) % (size + space) =
          (j - i) % (size + space) := by
        rw [hsub, Nat.add_mod_right]
      have hdiv : (j - i) / (size + space) =
          (j - (i + size + space)) / (size + space) + 1 := by
        rw [hsub, Nat.add_div_right _ (by omega)]
      rw [hmod]
      split_ifs with hcond
      · have : cb + 1 + (j - (i + size + space)) / (size + space) =
            cb + (j - i) / (size + space) := by
          rw [hdiv]
          omega
        rw [this]
      · rw [fillSlice_getElem?, if_neg (by omega)]

/-- Positional description of the pixel sequence the solid-color activation
computes: with period `size_of_color + space_between`, the first
`size_of_color` positions of each block get the block's color, the rest keep
the prior buffer value. -/
lemma solidColorPattern_spec (px colors : List Color)
    (size_of_color space_between : Nat) (hs : 1 ≤ size_of_color) (j : Nat)
    (hj : j < px.length) :
    (solidColorPattern px colors size_of_color space_between)[j]? =
      if j % (size_of_color + space_between) < size_of_color then
        some (colors.getD
          ((j / (size_of_color + space_between)) % colors.length) zeroColor)
      else px[j]? := by
  rw [solidColorPattern, solidLoop_spec colors size_of_color space_between
    (by omega) px.length 0 0 px j
    (by have := Nat.le_mul_of_pos_right px.length
          (show 0 < size_of_color + space_between by omega)
        omega)
    (Nat.zero_le j) hj]
  simp

/-- Length of the solid-color pattern. -/
lemma solidColorPattern_length (px colors : List Color)
    (size_of_color space_between : Nat) :
    (solidColorPattern px colors size_of_color space_between).length =
      px.length :=
  solidLoop_length colors size_of_color space_between px.length 0 0 px

/-- The spec's first determinism example: two colors, block size 1, no gap,
four pixels. -/
lemma pattern_example_nogap (a b x0 x1 x2 x3 : Color) :
    solidColorPattern [x0, x1, x2, x3] [a, b] 1 0 = [a, b, a, b] := by
  apply List.ext_getElem?
  intro j
  rcases Nat.lt_or_ge j 4 with hj | hj
  · rw [solidColorPattern_spec _ _ _ _ (by omega) j (by simpa using hj)]
    interval_cases j <;> simp [List.getD]
  · rw [List.getElem?_eq_none
      (by rw [solidColorPattern_length]; simpa using hj),
      List.getElem?_eq_none (by simpa using hj)]

/-- The spec's second determinism example: two colors, block size 1, gap 1,
six pixels; the skipped positions keep the prior buffer values. -/
lemma pattern_example_gap (a b x0 x1 x2 x3 x4 x5 : Color) :
    solidColorPattern [x0, x1, x2, x3, x4, x5] [a, b] 1 1 =
      [a, x1, b, x3, a, x5] := by
  apply List.ext_getElem?
  intro j
  rcases Nat.lt_or_ge j 6 with hj | hj
  · rw [solidColorPattern_spec _ _ _ _ (by omega) j (by simpa using hj)]
    interval_cases j <;> simp [List.getD]
  · rw [List.getElem?_eq_none
      (by rw [solidColorPattern_length]; simpa using hj),
      List.getElem?_eq_none (by simpa using hj)]

/-- The gap-scan fold appends `contribGaps` and carries `finalLast`. -/
lemma foldl_unusedStep :
    ∀ (segs : List Segment) (last : Int) (acc : List (Int × Int)),
      segs.foldl unusedStep (last, acc) =
        (finalLast last segs, acc ++ contribGaps last segs)
  | [], last, acc => by simp [finalLast, contribGaps]
  | s :: rest, last, acc => by
    rw [List.foldl_cons]
    have hstep : unusedStep (last, acc) s =
        ((s.pixel_end : Int),
          acc ++ (if (s.pixel_start : Int) - last > 1 then
            [(last + 1, (s.pixel_start : Int) - 1)] else [])) := by
      rw [unusedStep]
      split_ifs <;> simp
    rw [hstep, foldl_unusedStep rest _ _]
    show _ = (finalLast (s.pixel_end : Int) rest,
      acc ++ ((if (s.pixel_start : Int) - last > 1 then
        [(last + 1, (s.pixel_start : Int) - 1)] else []) ++
        contribGaps (s.pixel_end : Int) rest))
    rw [List.append_assoc]

/-- Starting the gap scan after a previous segment produces exactly the
between-segment gaps of the claim. -/
lemma contribGaps_eq_claimBetween :
    ∀ (rest : List Segment) (prev : Segment),
      contribGaps (prev.pixel_end : Int) rest = claimBetweenGaps (prev :: rest)
  | [], _ => rfl
  | s :: rest, prev => by
    show (if (s.pixel_start : Int) - (prev.pixel_end : Int) > 1 then
        [((prev.pixel_end : Int) + 1, (s.pixel_start : Int) - 1)] else []) ++
        contribGaps (s.pixel_end : Int) rest =
      (if (s.pixel_start : Int) > (prev.pixel_end : Int) + 1 then
        [((prev.pixel_end : Int) + 1, (s.pixel_start : Int) - 1)] else []) ++
        claimBetweenGaps (s :: rest)
    rw [contribGaps_eq_claimBetween rest s]
    congr 1
    by_cases h : (s.pixel_start : Int) > (prev.pixel_end : Int) + 1
    · rw [if_pos (by omega), if_pos h]
    · rw [if_neg (by omega), if_neg h]

/-- The carried `last_pixel` after a nonempty list is the last segment's
`pixel_end`. -/
lemma finalLast_eq :
    ∀ (rest : List Segment) (s0 : Segment) (last : Int),
      finalLast last (s0 :: rest) = ((lastSegment s0 rest).pixel_end : Int)
  | [], _, _ => rfl
  | s1 :: rest, s0, _last => finalLast_eq rest s1 (s0.pixel_end : Int)

/-- On a nonempty segment list the device gap scan computes exactly the gaps
the claim describes. -/
lemma check_device_unused_eq_claimGaps (segs : List Segment) (count : Nat)
    (hne : segs ≠ []) :
    check_device_unused segs count = claimGaps segs count := by
  match segs with
  | s0 :: rest =>
    have hhead : contribGaps (-1) (s0 :: rest) =
        (if 0 < s0.pixel_start then
          [((0 : Int), (s0.pixel_start : Int) - 1)] else []) ++
          claimBetweenGaps (s0 :: rest) := by
      show (if (s0.pixel_start : Int) - (-1) > 1 then
          [((-1 : Int) + 1, (s0.pixel_start : Int) - 1)] else []) ++
          contribGaps (s0.pixel_end : Int) rest = _
      rw [contribGaps_eq_claimBetween rest s0]
      congr 1
      by_cases h : 0 < s0.pixel_start
      · rw [if_pos (by omega), if_pos h]
        norm_num
      · rw [if_neg (by omega), if_neg h]
    show (let scanned := (s0 :: rest).foldl unusedStep ((-1 : Int), [])
      let last_pixel := scanned.1
      let unused := scanned.2
      if last_pixel < (count : Int) - 1 then
        unused ++ [(last_pixel + 1, (count : Int) - 1)]
      else unused) = claimGaps (s0 :: rest) count
    rw [foldl_unusedStep (s0 :: rest) (-1) [], finalLast_eq rest s0 (-1)]
    simp only [List.nil_append, hhead]
    rw [claimGaps]
    by_cases ht : ((lastSegment s0 rest).pixel_end : Int) < (count : Int) - 1
    · rw [if_pos ht, if_pos ht, List.append_assoc]
    · rw [if_neg ht, if_neg ht, List.append_nil]

/-- C1: the round-trip claim fails on the code: writing a correct-length
sequence to a two-segment group succeeds but, because `next_pixel` is never
advanced, every segment receives the prefix of the written sequence, so
reading back returns the first chunk repeated instead of the written
sequence; a wrong-length write does fail with the length-mismatch error. -/
theorem group_pixels_write_ignores_offset :
    (SegmentGroup.mk [⟨0, 0, 2⟩, ⟨0, 2, 4⟩]).set_pixels
        [(1, 1, 1), (2, 2, 2), (3, 3, 3), (4, 4, 4)]
        [[(9, 9, 9), (9, 9, 9), (9, 9, 9), (9, 9, 9)]] =
      .ok [[(1, 1, 1), (2, 2, 2), (1, 1, 1), (2, 2, 2)]] ∧
    (SegmentGroup.mk [⟨0, 0, 2⟩, ⟨0, 2, 4⟩]).pixels
        [[(1, 1, 1), (2, 2, 2), (1, 1, 1), (2, 2, 2)]] =
      [(1, 1, 1), (2, 2, 2), (1, 1, 1), (2, 2, 2)] ∧
    ([(1, 1, 1), (2, 2, 2), (1, 1, 1), (2, 2, 2)] : List Color) ≠
      [(1, 1, 1), (2, 2, 2), (3, 3, 3), (4, 4, 4)] ∧
    (SegmentGroup.mk [⟨0, 0, 2⟩, ⟨0, 2, 4⟩]).set_pixels [(1, 1, 1)]
        [[(9, 9, 9), (9, 9, 9), (9, 9, 9), (9, 9, 9)]] =
      .error "Pixel sequence must be the size of the segment group." := by
  refine ⟨by decide, by decide, by decide, by decide⟩

/-- C2: the claim's inclusive range fails on the code: a segment configured
with pixel_start 0 and pixel_end 4 on a ten-pixel device reads back only the
four pixels at offsets 0 to 3 (the Python slice excludes `pixel_end`), a
write of the claimed five-pixel length fails with the length-mismatch error,
and a four-pixel write succeeds, landing at offsets 0 to 3 only. -/
theorem segment_pixels_excludes_end :
    (Segment.mk 0 0 4).pixels
        [[(0, 0, 0), (1, 0, 0), (2, 0, 0), (3, 0, 0), (4, 0, 0), (5, 0, 0),
          (6, 0, 0), (7, 0, 0), (8, 0, 0), (9, 0, 0)]] =
      [(0, 0, 0), (1, 0, 0), (2, 0, 0), (3, 0, 0)] ∧
    ((Segment.mk 0 0 4).pixels
        [[(0, 0, 0), (1, 0, 0), (2, 0, 0), (3, 0, 0), (4, 0, 0), (5, 0, 0),
          (6, 0, 0), (7, 0, 0), (8, 0, 0), (9, 0, 0)]]).length = 4 ∧
    (4 : Nat) ≠ 4 - 0 + 1 ∧
    (Segment.mk 0 0 4).set_pixels
        [(7, 7, 7), (7, 7, 7), (7, 7, 7), (7, 7, 7), (7, 7, 7)]
        [[(0, 0, 0), (1, 0, 0), (2, 0, 0), (3, 0, 0), (4, 0, 0), (5, 0, 0),
          (6, 0, 0), (7, 0, 0), (8, 0, 0), (9, 0, 0)]] =
      .error "Pixel sequence must be the size of the segment." ∧
    (Segment.mk 0 0 4).set_pixels [(7, 7, 7), (7, 7, 7), (7, 7, 7), (7, 7, 7)]
        [[(0, 0, 0), (1, 0, 0), (2, 0, 0), (3, 0, 0), (4, 0, 0), (5, 0, 0),
          (6, 0, 0), (7, 0, 0), (8, 0, 0), (9, 0, 0)]] =
      .ok [[(7, 7, 7), (7, 7, 7), (7, 7, 7), (7, 7, 7), (4, 0, 0), (5, 0, 0),
          (6, 0, 0), (7, 0, 0), (8, 0, 0), (9, 0, 0)]] := by
  refine ⟨by decide, by decide, by decide, by decide, by decide⟩

/-- C3: the claimed if-and-only-if fails on the code: segments [0, 10] and
[3, 7] satisfy the claim's overlap condition (0 ≤ 7 and 3 ≤ 10) yet
`_segments_overlap` reports no overlap when the containing segment comes
first, and insertion accepts the pair; the claim's own examples do behave as
stated ([3, 7] against [0, 4] is rejected, [5, 9] against [0, 4] accepted). -/
theorem segments_overlap_misses_containment :
    segments_overlap ⟨0, 0, 10⟩ ⟨0, 3, 7⟩ = false ∧
    ((Segment.mk 0 0 10).pixel_start ≤ (Segment.mk 0 3 7).pixel_end ∧
      (Segment.mk 0 3 7).pixel_start ≤ (Segment.mk 0 0 10).pixel_end) ∧
    map_segment_to_device ⟨0, 0, 10⟩ [⟨0, 3, 7⟩] =
      .ok [⟨0, 3, 7⟩, ⟨0, 0, 10⟩] ∧
    segments_overlap ⟨0, 3, 7⟩ ⟨0, 0, 4⟩ = true ∧
    segments_overlap ⟨0, 5, 9⟩ ⟨0, 0, 4⟩ = false := by
  refine ⟨by decide, by decide, by decide, by decide, by decide⟩

/-- C4: the exactly-once claim fails on the code: inserting segment [5, 9]
after [0, 4] both inserts it in position and - the for-else appending
unconditionally - appends it again, so the device list holds it twice; and
inserting [0, 4] after [5, 9] only appends, leaving the list out of
ascending pixel_start order. -/
theorem map_segment_insert_duplicates :
    map_segment_insert ⟨0, 5, 9⟩ [⟨0, 0, 4⟩] =
      [⟨0, 0, 4⟩, ⟨0, 5, 9⟩, ⟨0, 5, 9⟩] ∧
    (map_segment_insert ⟨0, 5, 9⟩ [⟨0, 0, 4⟩]).count ⟨0, 5, 9⟩ = 2 ∧
    map_segment_insert ⟨0, 0, 4⟩ [⟨0, 5, 9⟩] = [⟨0, 5, 9⟩, ⟨0, 0, 4⟩] := by
  refine ⟨by decide, by decide, by decide⟩

/-- C5: SolidColorLightShow.activate computes, once per segment group, the
deterministic block walk: the pattern keeps the group's pixel count, colors
position j with colors[(j div (size + space)) mod len(colors)] exactly when
j mod (size + space) < size and leaves the other positions at the prior
buffer value; activation on a group writes exactly this pattern through the
group's setter; and in particular colors [a, b] with block size 1 produce
[a, b, a, b] on four pixels with no gap and [a, _, b, _, a, _] on six pixels
with gap 1. -/
theorem solid_color_pattern_block_walk (colors : List Color)
    (size_of_color space_between : Nat) (hs : 1 ≤ size_of_color)
    (_hc : colors ≠ []) :
    (∀ px : List Color,
      (solidColorPattern px colors size_of_color space_between).length =
        px.length) ∧
    (∀ (px : List Color) (j : Nat), j < px.length →
      (solidColorPattern px colors size_of_color space_between)[j]? =
        if j % (size_of_color + space_between) < size_of_color then
          some (colors.getD
            ((j / (size_of_color + space_between)) % colors.length) zeroColor)
        else px[j]?) ∧
    (∀ (g : SegmentGroup) (bufs : DeviceBuffers),
      solid_color_activate [g] colors size_of_color space_between bufs =
        g.set_pixels
          (solidColorPattern (g.pixels bufs) colors size_of_color
            space_between) bufs) ∧
    (∀ a b x0 x1 x2 x3 : Color,
      solidColorPattern [x0, x1, x2, x3] [a, b] 1 0 = [a, b, a, b]) ∧
    (∀ a b x0 x1 x2 x3 x4 x5 : Color,
      solidColorPattern [x0, x1, x2, x3, x4, x5] [a, b] 1 1 =
        [a, x1, b, x3, a, x5]) := by
  refine ⟨fun px => solidColorPattern_length px colors _ _,
    fun px j hj => solidColorPattern_spec px colors _ _ hs j hj,
    fun g bufs => ?_, pattern_example_nogap, pattern_example_gap⟩
  show (do
    let bufs1 ← g.set_pixels
      (solidColorPattern (g.pixels bufs) colors size_of_color space_between)
      bufs
    solid_color_activate [] colors size_of_color space_between bufs1) = _
  cases h : g.set_pixels
      (solidColorPattern (g.pixels bufs) colors size_of_color space_between)
      bufs <;>
    simp only [h, solid_color_activate] <;> rfl

/-- Witness for C5 at concrete inputs: two concrete colors, block size 1, no
gap, on four pixels. -/
theorem solid_color_pattern_block_walk_witness :
    solidColorPattern [(9, 9, 9), (9, 9, 9), (9, 9, 9), (9, 9, 9)]
        [(255, 0, 0), (0, 255, 0)] 1 0 =
      [(255, 0, 0), (0, 255, 0), (255, 0, 0), (0, 255, 0)] :=
  (solid_color_pattern_block_walk [(255, 0, 0), (0, 255, 0)] 1 0 (by decide)
    (by decide)).2.2.2.1 (255, 0, 0) (0, 255, 0) (9, 9, 9) (9, 9, 9) (9, 9, 9)
    (9, 9, 9)

/-- C6: the claimed rotating multi-pixel assignment fails on the code: on
every segment group the effect loop raises - the inner assignment indexes the
pixel array with the generator object `pixel_indicies` instead of the loop
variable `pixel_index`, which numpy rejects, and its color lookup
`self._colors[i]` does not wrap - and at a concrete three-pixel group with
two colors it raises the numpy invalid-index error. -/
theorem led_chasing_effect_loop_raises :
    (∀ (colors : List Color) (pixel : Nat) (g : SegmentGroup)
        (bufs : DeviceBuffers),
      ∃ msg, led_chasing_group_step colors pixel g bufs = .error msg) ∧
    led_chasing_group_step [(255, 0, 0), (0, 255, 0)] 0 ⟨[⟨0, 0, 3⟩]⟩
        [[(1, 1, 1), (2, 2, 2), (3, 3, 3)]] =
      .error "IndexError: only integers, slices, ellipsis, numpy.newaxis and integer or boolean arrays are valid indices" := by
  refine ⟨?_, by rfl⟩
  intro colors pixel g bufs
  rw [led_chasing_group_step]
  split_ifs <;> exact ⟨_, rfl⟩

/-- C7: after deactivation - the base LightShow.deactivate blanking loop, and
the temporal variant's deactivate, which stops the background task and then
runs the same blanking - every segment group's pixels read as the zero color
(0, 0, 0). -/
theorem deactivate_blanks_all_groups (groups : List SegmentGroup)
    (bufs : DeviceBuffers) :
    (∃ bufs', deactivate_loop groups bufs = .ok bufs' ∧
      ∀ g ∈ groups, ∀ c ∈ g.pixels bufs', c = zeroColor) ∧
    (∀ active : Bool, ∃ bufs',
      temporal_deactivate active groups bufs = .ok (false, bufs') ∧
      ∀ g ∈ groups, ∀ c ∈ g.pixels bufs', c = zeroColor) := by
  obtain ⟨bufs', hok, _, hz⟩ := deactivate_loop_zero groups bufs
  refine ⟨⟨bufs', hok, hz⟩, fun active => ⟨bufs', ?_, hz⟩⟩
  rw [temporal_deactivate, hok]
  rfl

/-- Witness for C7 at a concrete one-group, one-device configuration. -/
theorem deactivate_blanks_all_groups_witness :
    ∃ bufs', deactivate_loop [⟨[⟨0, 0, 2⟩]⟩] [[(5, 5, 5), (6, 6, 6)]] =
        .ok bufs' ∧
      ∀ g ∈ [(⟨[⟨0, 0, 2⟩]⟩ : SegmentGroup)], ∀ c ∈ g.pixels bufs',
        c = zeroColor :=
  (deactivate_blanks_all_groups [⟨[⟨0, 0, 2⟩]⟩] [[(5, 5, 5), (6, 6, 6)]]).1

/-- C8: the unused-pixel scan reports, for a device with at least one
segment, exactly the claim's gaps - before the first segment when its
pixel_start exceeds 0, between consecutive segments whose bounds differ by
more than one, and after the last segment up to pixel_count - 1; a device
with no segments contributes nothing; and a 10-pixel device with only
segment [0, 4] reports exactly the range (5, 9). -/
theorem unused_pixel_scan_gaps :
    (∀ (segs : List Segment) (count : Nat), segs ≠ [] →
      check_device_unused segs count = claimGaps segs count) ∧
    (∀ (dev : Device) (m : List DeviceAndSegments),
      check_unused_pixels ({ device := dev, segments := [] } :: m) =
        check_unused_pixels m) ∧
    check_device_unused [⟨0, 0, 4⟩] 10 = [(5, 9)] ∧
    check_unused_pixels [⟨⟨0, 10⟩, [⟨0, 0, 4⟩]⟩] = [(0, [(5, 9)])] := by
  refine ⟨check_device_unused_eq_claimGaps, ?_, by decide, by decide⟩
  intro dev m
  simp [check_unused_pixels]

/-- Witness for C8: the claim equality instantiated at the concrete 10-pixel
device with one segment. -/
theorem unused_pixel_scan_gaps_witness :
    check_device_unused [⟨0, 0, 4⟩] 10 = claimGaps [⟨0, 0, 4⟩] 10 :=
  unused_pixel_scan_gaps.1 [⟨0, 0, 4⟩] 10 (by decide)

/-- C9: the color handler returns a request-level 400 invalid-color response
naming the first unresolvable token and leaves the state - the current show,
its colors and its active flag - untouched; when every token resolves it
replaces the current show via deactivate, set colors, activate with the
resolved list, returning 200; in particular "RED_AND_CHARTREUSE" fails
naming "CHARTREUSE" without touching the active show. -/
theorem color_action_validates_tokens :
    (∀ (pattern : String) (st : LedFxState) (bad : String),
      firstInvalidColor (pySplit pattern "_AND_") = some bad →
      light_color_action pattern st = ((400, "invalid color " ++ bad), st)) ∧
    (∀ (pattern : String) (st : LedFxState) (s : ShowState),
      st.current_show = some s →
      firstInvalidColor (pySplit pattern "_AND_") = none →
      light_color_action pattern st = ((200, ""),
        ⟨some (showActivate (showSetColors (showDeactivate s)
          ((pySplit pattern "_AND_").filterMap lookupColor)))⟩)) ∧
    light_color_action "RED_AND_CHARTREUSE" ⟨some ⟨[(0, 255, 0)], true⟩⟩ =
      ((400, "invalid color CHARTREUSE"),
        ⟨some ⟨[(0, 255, 0)], true⟩⟩) ∧
    light_color_action "RED_AND_BLUE" ⟨some ⟨[(0, 255, 0)], true⟩⟩ =
      ((200, ""), ⟨some ⟨[(255, 0, 0), (0, 0, 255)], true⟩⟩) := by
  refine ⟨?_, ?_, by decide, by decide⟩
  · intro pattern st bad h
    simp only [light_color_action, h]
  · intro pattern st s hs h
    simp only [light_color_action, h, hs]

/-- Witness for C9: a composite action with an unresolvable second token at a
concrete state. -/
theorem color_action_validates_tokens_witness :
    light_color_action "BLUE_AND_MAUVE" ⟨none⟩ =
      ((400, "invalid color MAUVE"), ⟨none⟩) :=
  color_action_validates_tokens.1 "BLUE_AND_MAUVE" ⟨none⟩ "MAUVE" (by decide)

/-- C10: when no show is active and a token of the action fails to resolve,
the handler returns the invalid-color error without constructing or
activating the default show: the current-show slot is still empty
afterwards. -/
theorem color_action_error_keeps_show_empty :
    (∀ (pattern : String) (bad : String),
      firstInvalidColor (pySplit pattern "_AND_") = some bad →
      light_color_action pattern ⟨none⟩ =
        ((400, "invalid color " ++ bad), ⟨none⟩)) ∧
    light_color_action "CHARTREUSE" ⟨none⟩ =
      ((400, "invalid color CHARTREUSE"), ⟨none⟩) := by
  refine ⟨?_, by decide⟩
  intro pattern bad h
  simp only [light_color_action, h]

/-- Witness for C10: a single unresolvable token with the show slot empty. -/
theorem color_action_error_keeps_show_empty_witness :
    light_color_action "CYAN" ⟨none⟩ = ((400, "invalid color CYAN"), ⟨none⟩) :=
  color_action_error_keeps_show_empty.1 "CYAN" "CYAN" (by decide)

end WledClient
